import Mathlib

/-!
Shallow embedding of the Metra-Tracker arrival-computation pipeline.

The primary program is `custom_components/metra_tracker/sensor.py`
(`MetraArrivalsCoordinator._async_update_data`): fetch the GTFS-realtime
protobuf feed, keep entities with a `trip_update`, keep trips on the
configured line, extract arrival times at the configured start/end stops
(last usable entry wins, `elif` between the two stop branches), build the
train dicts, sort by `time_diff`, filter `time_diff > -300`, apply the
"show the next train anyway" fallback, truncate to 3 and publish a
snapshot with `count` and `last_update`.

The repository also contains a JSON-feed draft of the same coordinator
(top-level `sensor.py`) whose per-entry `try/except` skipping is embedded
separately further below (`Json`-suffixed definitions).

Timestamps are modelled as epoch seconds.  In the protobuf feed
`stu.arrival.time` is a proto3 integer whose default value `0` means "no
arrival here" and is skipped by the code.  Zoned-datetime arithmetic
(`datetime.fromtimestamp(t, tz)`, subtraction, `total_seconds`) acts on
the underlying instant, so differences of epoch seconds are faithful.
Display-only fields of the published dict (`"%H:%M"` strings, `date`,
station display names, `line_name`) are determined by the fields kept
here and play no role in the claims.
-/

/-- One element of `trip_update.stop_time_update`: `stop_id` plus
`stu.arrival.time` (epoch seconds, `0` = absent, skipped by the code). -/
structure StopTimeUpdate where
  stop_id : String
  arrivalTime : Nat
deriving Repr, DecidableEq

/-- The `trip_update` of a feed entity: `trip.route_id`, `trip.trip_id`
and the ordered `stop_time_update` sequence. -/
structure TripUpdate where
  route_id : String
  trip_id : String
  stop_time_update : List StopTimeUpdate
deriving Repr, DecidableEq

/-- One `feed.entity`: either it has a `trip_update` field or not
(`entity.HasField("trip_update")` fails and the entity is skipped). -/
inductive Entity where
  | other
  | tripUpdate (tu : TripUpdate)
deriving Repr, DecidableEq

/-- The train dict appended to `trains`: both arrival instants, the trip
id (`trip.trip_id or "unknown"`) and
`time_diff = (start_time - current_time).total_seconds()`. -/
structure Train where
  start_time : Nat
  end_time : Nat
  trip_id : String
  time_diff : Int
deriving Repr, DecidableEq

/-- The body of the `for stu in trip_update.stop_time_update` loop:
skip a zero arrival time, then `if stop_id == start_station:
start_time = arrival_time elif stop_id == end_station:
end_time = arrival_time`. -/
def stepStop (startStation endStation : String)
    (acc : Option Nat × Option Nat) (stu : StopTimeUpdate) :
    Option Nat × Option Nat :=
  if stu.arrivalTime = 0 then acc
  else if stu.stop_id = startStation then (some stu.arrivalTime, acc.2)
  else if stu.stop_id = endStation then (acc.1, some stu.arrivalTime)
  else acc

/-- The whole stop loop: fold `stepStop` over the stop sequence starting
from `start_time = None`, `end_time = None`. -/
def matchStops (startStation endStation : String)
    (stops : List StopTimeUpdate) : Option Nat × Option Nat :=
  stops.foldl (stepStop startStation endStation) (none, none)

/-- Per-trip processing: drop trips whose `route_id` differs from the
configured line, run the stop loop, and build the train dict only when
both times were found (`if start_time and end_time`). -/
def matchTrip (lineId startStation endStation : String) (currentTime : Int)
    (tu : TripUpdate) : Option Train :=
  if tu.route_id ≠ lineId then none
  else
    match matchStops startStation endStation tu.stop_time_update with
    | (some s, some e) =>
        some ⟨s, e, if tu.trip_id = "" then "unknown" else tu.trip_id,
          (s : Int) - currentTime⟩
    | _ => none

/-- Per-entity processing: entities without a `trip_update` are skipped
(`if not entity.HasField("trip_update"): continue`). -/
def matchEntity (lineId startStation endStation : String) (currentTime : Int) :
    Entity → Option Train
  | .other => none
  | .tripUpdate tu => matchTrip lineId startStation endStation currentTime tu

/-- The `trains` list accumulated by the entity loop. -/
def matchedTrains (lineId startStation endStation : String) (currentTime : Int)
    (entities : List Entity) : List Train :=
  entities.filterMap (matchEntity lineId startStation endStation currentTime)

/-- Comparison used by `trains.sort(key=lambda x: x["time_diff"])`. -/
def tdLE (a b : Train) : Prop := a.time_diff ≤ b.time_diff

instance : DecidableRel tdLE := fun _ b => Int.decLe _ b.time_diff

instance : IsTotal Train tdLE := ⟨fun a b => Int.le_total a.time_diff b.time_diff⟩

instance : IsTrans Train tdLE := ⟨fun _ _ _ => Int.le_trans⟩

/-- `trains` after `trains.sort(key=lambda x: x["time_diff"])` (Python's
sort is stable; a stable sort by `time_diff`). -/
def sortedMatched (lineId startStation endStation : String) (currentTime : Int)
    (entities : List Entity) : List Train :=
  (matchedTrains lineId startStation endStation currentTime entities).insertionSort tdLE

/-- `upcoming_trains = [t for t in trains if t["time_diff"] > -300]`. -/
def filteredUpcoming (lineId startStation endStation : String) (currentTime : Int)
    (entities : List Entity) : List Train :=
  (sortedMatched lineId startStation endStation currentTime entities).filter
    fun t => decide ((-300 : Int) < t.time_diff)

/-- `upcoming_trains` after the fallback
`if not upcoming_trains and trains: upcoming_trains = [trains[0]]`. -/
def displayTrains (lineId startStation endStation : String) (currentTime : Int)
    (entities : List Entity) : List Train :=
  match filteredUpcoming lineId startStation endStation currentTime entities,
      sortedMatched lineId startStation endStation currentTime entities with
  | [], t :: _ => [t]
  | u, _ => u

/-- The published result of one cycle: either the `{"error": msg}` dict or
the success dict (`trains`, `count`, `last_update`; the constant
station/line display-name fields carry no information and are omitted). -/
inductive Snapshot where
  | error (msg : String)
  | success (trains : List Train) (count : Nat) (last_update : Int)
deriving Repr, DecidableEq

/-- The success path of `_async_update_data`:
`{"trains": upcoming_trains[:3], "count": len(upcoming_trains),
"last_update": current_time.isoformat(), ...}`. -/
def processFeed (lineId startStation endStation : String) (currentTime : Int)
    (entities : List Entity) : Snapshot :=
  .success ((displayTrains lineId startStation endStation currentTime entities).take 3)
    (displayTrains lineId startStation endStation currentTime entities).length
    currentTime

/-- The body the coordinator got back from the network: either
`ParseFromString` raises (malformed protobuf envelope, caught by the outer
`except` as `str(ex)`) or it decodes to a sequence of entities. -/
inductive Payload where
  | malformed (msg : String)
  | parsed (entities : List Entity)
deriving Repr, DecidableEq

/-- Outcome of `session.get(url, timeout=15)` + `response.read()`: a
status code with a body, or a raised network/timeout exception whose
message is `str(ex)`. -/
inductive FetchOutcome where
  | exception (msg : String)
  | response (status : Nat) (payload : Payload)
deriving Repr, DecidableEq

/-- One poll cycle of `_async_update_data`: non-200 status returns
`{"error": f"HTTP {response.status}"}`; any raised exception is caught by
the outer `except` and returned as `{"error": str(ex)}`; otherwise the
decoded entities are processed into a success snapshot. -/
def poll (lineId startStation endStation : String) (currentTime : Int) :
    FetchOutcome → Snapshot
  | .exception msg => .error msg
  | .response status payload =>
      if status ≠ 200 then .error ("HTTP " ++ toString status)
      else
        match payload with
        | .malformed msg => .error msg
        | .parsed entities =>
            processFeed lineId startStation endStation currentTime entities

/-!
Embedding of the JSON-feed draft coordinator (top-level `sensor.py`).
Only this variant has exception-driven per-entry skipping: the entity
loop body is wrapped in `try: ... except: continue`, and each stop's
`datetime.fromisoformat` is wrapped in an inner `try: ... except:
continue`.  A stop's raw arrival field is `stop.get("arrival", {})
.get("time", {}).get("low")`; a missing/falsy value is skipped
(`if not arrival_raw: continue`), a present value either parses to an
instant or raises.  Parsed zoned datetimes are modelled by their epoch
seconds.
-/

/-- The arrival field of one JSON stop entry: missing/falsy, present but
unparseable (`fromisoformat` raises), or parsed to an instant. -/
inductive ArrivalField where
  | absent
  | bad (raw : String)
  | iso (t : Int)
deriving Repr, DecidableEq

/-- One element of `trip_update.stop_time_update` in the JSON feed:
`stop.get("stop_id")` (may be missing) and the arrival field. -/
structure StopEntryJson where
  stop_id : Option String
  arrival : ArrivalField
deriving Repr, DecidableEq

/-- The `trip_update` of one JSON item: `trip.get("route_id")`,
`trip.get("trip_id", "unknown")` and the stop entries. -/
structure TripJson where
  route_id : Option String
  trip_id : Option String
  stops : List StopEntryJson
deriving Repr, DecidableEq

/-- One element of the top-level JSON array: either processing its body
raises (malformed item, swallowed by `except ...: continue`) or it
carries a trip update. -/
inductive ItemJson where
  | malformed
  | ok (trip : TripJson)
deriving Repr, DecidableEq

/-- Stop-loop body of the JSON variant: skip a missing arrival, skip a
stop whose timestamp fails to parse (inner `except: continue`), else the
same `if/elif` assignment as the protobuf variant. -/
def stepStopJson (startStation endStation : String)
    (acc : Option Int × Option Int) (stop : StopEntryJson) :
    Option Int × Option Int :=
  match stop.arrival with
  | .absent => acc
  | .bad _ => acc
  | .iso t =>
      if stop.stop_id = some startStation then (some t, acc.2)
      else if stop.stop_id = some endStation then (acc.1, some t)
      else acc

/-- The JSON stop loop. -/
def matchStopsJson (startStation endStation : String)
    (stops : List StopEntryJson) : Option Int × Option Int :=
  stops.foldl (stepStopJson startStation endStation) (none, none)

/-- Train dict of the JSON variant (times as instants). -/
structure TrainJson where
  start_time : Int
  end_time : Int
  trip_id : String
  time_diff : Int
deriving Repr, DecidableEq

/-- Per-item processing of the JSON variant: a malformed item is skipped
by `except ...: continue`; a well-formed item is dropped unless its
`route_id` equals the configured line, then the stop loop runs and the
train dict is built only when both times were found. -/
def matchItemJson (lineId startStation endStation : String) (currentTime : Int) :
    ItemJson → Option TrainJson
  | .malformed => none
  | .ok trip =>
      if trip.route_id ≠ some lineId then none
      else
        match matchStopsJson startStation endStation trip.stops with
        | (some s, some e) =>
            some ⟨s, e, trip.trip_id.getD "unknown", s - currentTime⟩
        | _ => none

/-- Comparison used by the JSON variant's `trains.sort`. -/
def tdLEJson (a b : TrainJson) : Prop := a.time_diff ≤ b.time_diff

instance : DecidableRel tdLEJson := fun _ b => Int.decLe _ b.time_diff

/-- Snapshot published by the JSON variant. -/
inductive SnapshotJson where
  | error (msg : String)
  | success (trains : List TrainJson) (count : Nat) (last_update : Int)
deriving Repr, DecidableEq

/-- Success path of the JSON variant: accumulate, sort, filter
`time_diff > -300`, fallback, truncate to 3, publish `count` and
`last_update`. -/
def processItemsJson (lineId startStation endStation : String) (currentTime : Int)
    (items : List ItemJson) : SnapshotJson :=
  let trains :=
    (items.filterMap (matchItemJson lineId startStation endStation currentTime)).insertionSort
      tdLEJson
  let upcoming := trains.filter fun t => decide ((-300 : Int) < t.time_diff)
  let display :=
    match upcoming, trains with
    | [], t :: _ => [t]
    | u, _ => u
  .success (display.take 3) display.length currentTime

/-- Body returned by `response.json()`: raises on a malformed JSON body
(caught by the outer `except` as `str(ex)`) or parses to the item list. -/
inductive PayloadJson where
  | malformed (msg : String)
  | parsed (items : List ItemJson)
deriving Repr, DecidableEq

/-- Outcome of `session.get(..., timeout=10)` in the JSON variant. -/
inductive FetchOutcomeJson where
  | exception (msg : String)
  | response (status : Nat) (payload : PayloadJson)
deriving Repr, DecidableEq

/-- One poll cycle of the JSON variant's `_async_update_data`: non-200
status returns `{"error": f"API returned {response.status}"}`, raised
exceptions become `{"error": str(ex)}`, otherwise the items are
processed. -/
def pollJson (lineId startStation endStation : String) (currentTime : Int) :
    FetchOutcomeJson → SnapshotJson
  | .exception msg => .error msg
  | .response status payload =>
      if status ≠ 200 then .error ("API returned " ++ toString status)
      else
        match payload with
        | .malformed msg => .error msg
        | .parsed items =>
            processItemsJson lineId startStation endStation currentTime items

/-! ### Helper lemmas about the stop loop -/

/-- With identical start and end stations the `elif` arm of the stop loop
body never fires, so the second component of the accumulator is never
written. -/
theorem stepStop_same_snd (station : String) (acc : Option Nat × Option Nat)
    (stu : StopTimeUpdate) : (stepStop station station acc stu).2 = acc.2 := by
  unfold stepStop
  split_ifs with h1 h2 <;> simp_all

/-- Folding the stop loop with identical stations keeps the second
component of the accumulator. -/
theorem foldl_stepStop_same_snd (station : String) (stops : List StopTimeUpdate)
    (acc : Option Nat × Option Nat) :
    (stops.foldl (stepStop station station) acc).2 = acc.2 := by
  induction stops generalizing acc with
  | nil => rfl
  | cons u rest ih => rw [List.foldl_cons, ih, stepStop_same_snd]

/-- A stop entry with a zero arrival time, or whose id is neither
configured station, leaves the accumulator unchanged. -/
theorem stepStop_inert (startStation endStation : String)
    (acc : Option Nat × Option Nat) (stu : StopTimeUpdate)
    (h : stu.arrivalTime = 0 ∨ (stu.stop_id ≠ startStation ∧ stu.stop_id ≠ endStation)) :
    stepStop startStation endStation acc stu = acc := by
  unfold stepStop
  split_ifs with h1 h2 h3 <;> simp_all

/-- A run of inert stop entries leaves the accumulator unchanged. -/
theorem foldl_stepStop_inert (startStation endStation : String)
    (stops : List StopTimeUpdate) (acc : Option Nat × Option Nat)
    (h : ∀ u ∈ stops,
      u.arrivalTime = 0 ∨ (u.stop_id ≠ startStation ∧ u.stop_id ≠ endStation)) :
    stops.foldl (stepStop startStation endStation) acc = acc := by
  induction stops generalizing acc with
  | nil => rfl
  | cons u rest ih =>
      rw [List.foldl_cons, stepStop_inert startStation endStation acc u (h u (by simp))]
      exact ih acc fun v hv => h v (by simp [hv])

/-- A stop entry that is not a usable start-station entry preserves the
first component of the accumulator. -/
theorem stepStop_fst_frozen (startStation endStation : String)
    (acc : Option Nat × Option Nat) (stu : StopTimeUpdate)
    (h : stu.arrivalTime = 0 ∨ stu.stop_id ≠ startStation) :
    (stepStop startStation endStation acc stu).1 = acc.1 := by
  unfold stepStop
  split_ifs with h1 h2 h3 <;> simp_all

/-- A stop entry that is not a usable end-station entry preserves the
second component of the accumulator. -/
theorem stepStop_snd_frozen (startStation endStation : String)
    (acc : Option Nat × Option Nat) (stu : StopTimeUpdate)
    (h : stu.arrivalTime = 0 ∨ stu.stop_id ≠ endStation) :
    (stepStop startStation endStation acc stu).2 = acc.2 := by
  unfold stepStop
  split_ifs with h1 h2 h3 <;> simp_all

/-- Folding over entries with no usable start-station entry preserves the
first component. -/
theorem foldl_stepStop_fst_frozen (startStation endStation : String)
    (stops : List StopTimeUpdate) (acc : Option Nat × Option Nat)
    (h : ∀ u ∈ stops, u.arrivalTime = 0 ∨ u.stop_id ≠ startStation) :
    (stops.foldl (stepStop startStation endStation) acc).1 = acc.1 := by
  induction stops generalizing acc with
  | nil => rfl
  | cons u rest ih =>
      rw [List.foldl_cons]
      rw [ih _ fun v hv => h v (by simp [hv])]
      exact stepStop_fst_frozen startStation endStation acc u (h u (by simp))

/-- Folding over entries with no usable end-station entry preserves the
second component. -/
theorem foldl_stepStop_snd_frozen (startStation endStation : String)
    (stops : List StopTimeUpdate) (acc : Option Nat × Option Nat)
    (h : ∀ u ∈ stops, u.arrivalTime = 0 ∨ u.stop_id ≠ endStation) :
    (stops.foldl (stepStop startStation endStation) acc).2 = acc.2 := by
  induction stops generalizing acc with
  | nil => rfl
  | cons u rest ih =>
      rw [List.foldl_cons]
      rw [ih _ fun v hv => h v (by simp [hv])]
      exact stepStop_snd_frozen startStation endStation acc u (h u (by simp))

/-! ### Helper lemmas about the pipeline -/

/-- A produced train records exactly the route check and the two matched
stop times: `matchTrip` returns `some t` only when the route matches and
the stop loop found both arrival instants, which become `t.start_time`
and `t.end_time`; `time_diff` is `start_time - current_time`. -/
theorem matchTrip_eq_some (lineId startStation endStation : String)
    (currentTime : Int) (tu : TripUpdate) (t : Train)
    (h : matchTrip lineId startStation endStation currentTime tu = some t) :
    tu.route_id = lineId ∧
      matchStops startStation endStation tu.stop_time_update =
        (some t.start_time, some t.end_time) ∧
      t.time_diff = (t.start_time : Int) - currentTime := by
  rw [matchTrip] at h
  split at h
  · exact absurd h (by simp)
  · next hroute =>
      rcases hms : matchStops startStation endStation tu.stop_time_update with ⟨a, b⟩
      rw [hms] at h
      rcases a with _ | s
      · simp at h
      rcases b with _ | e
      · simp at h
      injection h with h
      subst h
      exact ⟨not_not.mp hroute, rfl, rfl⟩

/-- The published snapshot depends on the entity list only through the
accumulated `trains` list. -/
theorem processFeed_congr (lineId startStation endStation : String)
    (currentTime : Int) (l₁ l₂ : List Entity)
    (h : matchedTrains lineId startStation endStation currentTime l₁ =
      matchedTrains lineId startStation endStation currentTime l₂) :
    processFeed lineId startStation endStation currentTime l₁ =
      processFeed lineId startStation endStation currentTime l₂ := by
  simp only [processFeed, displayTrains, filteredUpcoming, sortedMatched, h]

/-- Every published train was accumulated from some entity of the feed. -/
theorem mem_displayTrains (lineId startStation endStation : String)
    (currentTime : Int) (entities : List Entity) (t : Train)
    (h : t ∈ displayTrains lineId startStation endStation currentTime entities) :
    t ∈ matchedTrains lineId startStation endStation currentTime entities := by
  have hperm :=
    List.perm_insertionSort tdLE
      (matchedTrains lineId startStation endStation currentTime entities)
  have hsubmem : ∀ x : Train,
      x ∈ sortedMatched lineId startStation endStation currentTime entities →
        x ∈ matchedTrains lineId startStation endStation currentTime entities :=
    fun _ hx => hperm.subset hx
  rw [displayTrains] at h
  rcases hfil : filteredUpcoming lineId startStation endStation currentTime entities
      with _ | ⟨f, fs⟩
  · rcases hsor : sortedMatched lineId startStation endStation currentTime entities
        with _ | ⟨q, qs⟩
    · rw [hfil, hsor] at h
      simp at h
    · rw [hfil, hsor] at h
      simp at h
      subst h
      exact hsubmem t (by rw [hsor]; exact List.mem_cons_self _ _)
  · rw [hfil] at h
    simp at h
    have h' : t ∈ filteredUpcoming lineId startStation endStation currentTime entities := by
      rw [hfil]; simpa using h
    exact hsubmem t (List.mem_of_mem_filter h')

/-! ### Claim C9: identical start and end stations -/

/-- C9: if the configured start stop id equals the configured end stop
id, the `elif` end-stop branch of the stop loop is unreachable, so no
trip ever produces a matched arrival and every success snapshot has
`trains = []` and `count = 0`. -/
theorem same_station_unreachable_elif (lineId station : String)
    (currentTime : Int) (entities : List Entity) :
    processFeed lineId station station currentTime entities =
      .success [] 0 currentTime := by
  have hm : matchedTrains lineId station station currentTime entities = [] := by
    rw [matchedTrains, List.filterMap_eq_nil_iff]
    intro a _
    cases a with
    | other => rfl
    | tripUpdate tu =>
        simp only [matchEntity, matchTrip]
        split
        · rfl
        · have h2 := foldl_stepStop_same_snd station tu.stop_time_update (none, none)
          rcases hms : matchStops station station tu.stop_time_update with ⟨a, b⟩
          have hb : b = none := by
            rw [matchStops] at hms
            rw [hms] at h2
            exact h2
          subst hb
          cases a <;> simp
  have hdisp : displayTrains lineId station station currentTime entities = [] := by
    simp [displayTrains, filteredUpcoming, sortedMatched, hm]
  simp [processFeed, hdisp]

/-! ### Claim C4: route isolation -/

/-- C4: a trip whose `route_id` differs from the configured line id
(exact string inequality) produces no matched arrival, and deleting it
from the feed leaves the published snapshot — `trains` and `count` —
unchanged. -/
theorem route_isolation (lineId startStation endStation : String)
    (currentTime : Int) (tu : TripUpdate) (hroute : tu.route_id ≠ lineId) :
    matchTrip lineId startStation endStation currentTime tu = none ∧
      ∀ xs ys : List Entity,
        processFeed lineId startStation endStation currentTime
            (xs ++ .tripUpdate tu :: ys) =
          processFeed lineId startStation endStation currentTime (xs ++ ys) := by
  have hnone : matchTrip lineId startStation endStation currentTime tu = none := by
    rw [matchTrip, if_pos hroute]
  refine ⟨hnone, fun xs ys => ?_⟩
  apply processFeed_congr
  simp [matchedTrains, List.filterMap_append, List.filterMap_cons, matchEntity, hnone]

/-- Witness for C4 at a concrete off-line trip. -/
theorem route_isolation_witness :
    matchTrip "UP-W" "STA" "STB" 0 ⟨"BNSF", "t1", [⟨"STA", 100⟩, ⟨"STB", 200⟩]⟩ = none ∧
      processFeed "UP-W" "STA" "STB" 0
          [.tripUpdate ⟨"BNSF", "t1", [⟨"STA", 100⟩, ⟨"STB", 200⟩]⟩] =
        processFeed "UP-W" "STA" "STB" 0 [] :=
  ⟨(route_isolation "UP-W" "STA" "STB" 0
      ⟨"BNSF", "t1", [⟨"STA", 100⟩, ⟨"STB", 200⟩]⟩ (by decide)).1,
   (route_isolation "UP-W" "STA" "STB" 0
      ⟨"BNSF", "t1", [⟨"STA", 100⟩, ⟨"STB", 200⟩]⟩ (by decide)).2 [] []⟩

/-! ### Claim C5: both-or-nothing -/

/-- C5: a matched arrival is produced exactly when the stop loop found
usable arrival instants at both configured stops: if either component is
missing the trip yields `none`, and a produced train always carries both
found instants. -/
theorem both_or_nothing (lineId startStation endStation : String)
    (currentTime : Int) (tu : TripUpdate) :
    (∀ t : Train, matchTrip lineId startStation endStation currentTime tu = some t →
        matchStops startStation endStation tu.stop_time_update =
          (some t.start_time, some t.end_time)) ∧
    (((matchStops startStation endStation tu.stop_time_update).1 = none ∨
        (matchStops startStation endStation tu.stop_time_update).2 = none) →
      matchTrip lineId startStation endStation currentTime tu = none) := by
  constructor
  · intro t ht
    exact (matchTrip_eq_some lineId startStation endStation currentTime tu t ht).2.1
  · intro h
    rw [matchTrip]
    split
    · rfl
    · rcases hms : matchStops startStation endStation tu.stop_time_update with ⟨a, b⟩
      rw [hms] at h
      rcases a with _ | s
      · cases b <;> simp
      · rcases b with _ | e
        · simp
        · simp at h

/-- Witness for C5: a trip matching only the start stop yields nothing;
a trip matching both stops yields the pair of found instants. -/
theorem both_or_nothing_witness :
    matchTrip "UP-W" "STA" "STB" 0 ⟨"UP-W", "t1", [⟨"STA", 100⟩]⟩ = none ∧
      matchStops "STA" "STB" [⟨"STA", 100⟩, ⟨"STB", 200⟩] = (some 100, some 200) :=
  ⟨(both_or_nothing "UP-W" "STA" "STB" 0 ⟨"UP-W", "t1", [⟨"STA", 100⟩]⟩).2
      (by decide),
   (both_or_nothing "UP-W" "STA" "STB" 0
      ⟨"UP-W", "t1", [⟨"STA", 100⟩, ⟨"STB", 200⟩]⟩).1 ⟨100, 200, "t1", 100⟩
      (by decide)⟩

/-- The post-fallback list is sorted by `time_diff`: it is either a
filtered sublist of the sorted `trains` list or a singleton. -/
theorem displayTrains_pairwise (lineId startStation endStation : String)
    (currentTime : Int) (entities : List Entity) :
    (displayTrains lineId startStation endStation currentTime entities).Pairwise tdLE := by
  have hs : (sortedMatched lineId startStation endStation currentTime entities).Pairwise tdLE :=
    List.sorted_insertionSort tdLE _
  rcases hfil : filteredUpcoming lineId startStation endStation currentTime entities
      with _ | ⟨f, fs⟩
  · rcases hsor : sortedMatched lineId startStation endStation currentTime entities
        with _ | ⟨q, qs⟩
    · simp [displayTrains, hfil, hsor]
    · simp [displayTrains, hfil, hsor]
  · have hp : (filteredUpcoming lineId startStation endStation currentTime entities).Pairwise
        tdLE := hs.filter _
    rw [hfil] at hp
    rw [displayTrains, hfil]
    exact hp

/-! ### Claim C2: snapshot invariants -/

/-- C2: in every success snapshot the published `trains` list is sorted
ascending by `time_diff`, has at most 3 elements, and each element stems
from some feed trip for which the stop loop found arrival instants at
both configured stops (its `start_time` and `end_time`); a trip matching
only one stop never appears. -/
theorem trains_sorted_capped_complete (lineId startStation endStation : String)
    (currentTime : Int) (entities : List Entity) (tr : List Train) (cnt : Nat)
    (lu : Int)
    (h : processFeed lineId startStation endStation currentTime entities =
      .success tr cnt lu) :
    tr.Pairwise tdLE ∧ tr.length ≤ 3 ∧
      ∀ t ∈ tr, ∃ tu : TripUpdate, Entity.tripUpdate tu ∈ entities ∧
        matchStops startStation endStation tu.stop_time_update =
          (some t.start_time, some t.end_time) := by
  rw [processFeed] at h
  injection h with h1 h2 h3
  subst h1
  refine ⟨?_, ?_, ?_⟩
  · exact (displayTrains_pairwise lineId startStation endStation currentTime
      entities).sublist (List.take_sublist _ _)
  · rw [List.length_take]
    exact min_le_left _ _
  · intro t ht
    have hdisp : t ∈ displayTrains lineId startStation endStation currentTime entities :=
      (List.take_sublist _ _).subset ht
    have hmem := mem_displayTrains lineId startStation endStation currentTime entities t hdisp
    rw [matchedTrains, List.mem_filterMap] at hmem
    obtain ⟨ent, hent, hsome⟩ := hmem
    cases ent with
    | other => exact absurd hsome (by simp [matchEntity])
    | tripUpdate tu =>
        rw [matchEntity] at hsome
        exact ⟨tu, hent,
          (matchTrip_eq_some lineId startStation endStation currentTime tu t hsome).2.1⟩

/-- Witness for C2 at a one-trip feed. -/
theorem trains_sorted_capped_complete_witness :
    ([⟨1600, 2500, "t1", 600⟩] : List Train).Pairwise tdLE ∧
      ([⟨1600, 2500, "t1", 600⟩] : List Train).length ≤ 3 ∧
      ∀ t ∈ ([⟨1600, 2500, "t1", 600⟩] : List Train), ∃ tu : TripUpdate,
        Entity.tripUpdate tu ∈
            [Entity.tripUpdate ⟨"UP-W", "t1", [⟨"STA", 1600⟩, ⟨"STB", 2500⟩]⟩] ∧
          matchStops "STA" "STB" tu.stop_time_update =
            (some t.start_time, some t.end_time) :=
  trains_sorted_capped_complete "UP-W" "STA" "STB" 1000
    [Entity.tripUpdate ⟨"UP-W", "t1", [⟨"STA", 1600⟩, ⟨"STB", 2500⟩]⟩]
    [⟨1600, 2500, "t1", 600⟩] 1 1000 (by decide)

/-! ### Claim C3: fallback law -/

/-- C3: when some trips matched but every one of them has
`time_diff ≤ -300` (so the `> -300` filter empties the list), the
published `trains` list is exactly one element — a matched trip of
minimal `time_diff` — and never the empty list. -/
theorem fallback_law (lineId startStation endStation : String) (currentTime : Int)
    (entities : List Entity)
    (hne : matchedTrains lineId startStation endStation currentTime entities ≠ [])
    (hall : ∀ t ∈ matchedTrains lineId startStation endStation currentTime entities,
      t.time_diff ≤ -300) :
    ∃ m : Train,
      processFeed lineId startStation endStation currentTime entities =
        .success [m] 1 currentTime ∧
      m ∈ matchedTrains lineId startStation endStation currentTime entities ∧
      ∀ t ∈ matchedTrains lineId startStation endStation currentTime entities,
        m.time_diff ≤ t.time_diff := by
  have hperm : (sortedMatched lineId startStation endStation currentTime entities).Perm
      (matchedTrains lineId startStation endStation currentTime entities) :=
    List.perm_insertionSort tdLE _
  have hs : (sortedMatched lineId startStation endStation currentTime entities).Pairwise tdLE :=
    List.sorted_insertionSort tdLE _
  have hfil : filteredUpcoming lineId startStation endStation currentTime entities = [] := by
    rw [filteredUpcoming, List.filter_eq_nil_iff]
    intro a ha
    have hale := hall a (hperm.subset ha)
    simp only [decide_eq_true_eq]
    omega
  rcases hsor : sortedMatched lineId startStation endStation currentTime entities
      with _ | ⟨m, rest⟩
  · exact absurd (List.Perm.nil_eq (hsor ▸ hperm)).symm hne
  · refine ⟨m, ?_, ?_, ?_⟩
    · have hdisp : displayTrains lineId startStation endStation currentTime entities = [m] := by
        rw [displayTrains, hfil, hsor]
      simp [processFeed, hdisp]
    · exact hperm.subset (by rw [hsor]; exact List.mem_cons_self _ _)
    · intro t htm
      have hts : t ∈ sortedMatched lineId startStation endStation currentTime entities :=
        hperm.mem_iff.mpr htm
      rw [hsor] at hts
      rcases List.mem_cons.mp hts with rfl | hrest
      · exact le_refl _
      · rw [hsor] at hs
        exact (List.pairwise_cons.mp hs).1 t hrest

/-- Witness for C3: a single already-departed trip is still published. -/
theorem fallback_law_witness :
    ∃ m : Train,
      processFeed "UP-W" "STA" "STB" 1000
          [Entity.tripUpdate ⟨"UP-W", "t1", [⟨"STA", 100⟩, ⟨"STB", 200⟩]⟩] =
        .success [m] 1 1000 ∧
      m ∈ matchedTrains "UP-W" "STA" "STB" 1000
          [Entity.tripUpdate ⟨"UP-W", "t1", [⟨"STA", 100⟩, ⟨"STB", 200⟩]⟩] ∧
      ∀ t ∈ matchedTrains "UP-W" "STA" "STB" 1000
          [Entity.tripUpdate ⟨"UP-W", "t1", [⟨"STA", 100⟩, ⟨"STB", 200⟩]⟩],
        m.time_diff ≤ t.time_diff :=
  fallback_law "UP-W" "STA" "STB" 1000
    [Entity.tripUpdate ⟨"UP-W", "t1", [⟨"STA", 100⟩, ⟨"STB", 200⟩]⟩]
    (by decide) (by decide)

/-! ### Claim C1: `count` versus the filtered list -/

/-- C1 counterexample: with a single matched trip whose `time_diff` is
`-900 ≤ -300`, the filter empties the list and the fallback fires, yet
the published snapshot has `count = 1` — not `count = 0` as the claim's
"`count` = length of the filtered pre-truncation list" demands — because
`len(upcoming_trains)` is computed after the fallback reassignment. -/
theorem count_counterexample :
    processFeed "UP-W" "STA" "STB" 1000
        [.tripUpdate ⟨"UP-W", "t1", [⟨"STA", 100⟩, ⟨"STB", 200⟩]⟩] =
      .success [⟨100, 200, "t1", -900⟩] 1 1000 ∧
      (filteredUpcoming "UP-W" "STA" "STB" 1000
        [.tripUpdate ⟨"UP-W", "t1", [⟨"STA", 100⟩, ⟨"STB", 200⟩]⟩]).length = 0 ∧
      (1 : Nat) ≠ 0 := by
  decide

/-- C1 amended: `count` equals the length of the pre-truncation list
*after the fallback* — so when the fallback fires the snapshot has
`count = 1` and `trains` has exactly 1 element (they agree there; they
diverge only when more than 3 trips pass the filter). -/
theorem count_eq_post_fallback_length (lineId startStation endStation : String)
    (currentTime : Int) (entities : List Entity) (tr : List Train) (cnt : Nat)
    (lu : Int)
    (h : processFeed lineId startStation endStation currentTime entities =
      .success tr cnt lu) :
    cnt = (displayTrains lineId startStation endStation currentTime entities).length ∧
      (filteredUpcoming lineId startStation endStation currentTime entities = [] →
        matchedTrains lineId startStation endStation currentTime entities ≠ [] →
        cnt = 1 ∧ tr.length = 1) := by
  rw [processFeed] at h
  injection h with h1 h2 h3
  subst h1 h2
  refine ⟨rfl, fun hfil hne => ?_⟩
  have hperm : (sortedMatched lineId startStation endStation currentTime entities).Perm
      (matchedTrains lineId startStation endStation currentTime entities) :=
    List.perm_insertionSort tdLE _
  rcases hsor : sortedMatched lineId startStation endStation currentTime entities
      with _ | ⟨m, rest⟩
  · exact absurd (List.Perm.nil_eq (hsor ▸ hperm)).symm hne
  · have hdisp : displayTrains lineId startStation endStation currentTime entities = [m] := by
      rw [displayTrains, hfil, hsor]
    rw [hdisp]
    exact ⟨rfl, rfl⟩

/-- Witness for C1's amended claim at a fallback-firing feed. -/
theorem count_eq_post_fallback_length_witness :
    (1 : Nat) = (displayTrains "UP-W" "STA" "STB" 2000
        [.tripUpdate ⟨"UP-W", "t2", [⟨"STA", 500⟩, ⟨"STB", 700⟩]⟩]).length ∧
      ((1 : Nat) = 1 ∧ ([⟨500, 700, "t2", -1500⟩] : List Train).length = 1) :=
  ⟨(count_eq_post_fallback_length "UP-W" "STA" "STB" 2000
      [.tripUpdate ⟨"UP-W", "t2", [⟨"STA", 500⟩, ⟨"STB", 700⟩]⟩]
      [⟨500, 700, "t2", -1500⟩] 1 2000 (by decide)).1,
   (count_eq_post_fallback_length "UP-W" "STA" "STB" 2000
      [.tripUpdate ⟨"UP-W", "t2", [⟨"STA", 500⟩, ⟨"STB", 700⟩]⟩]
      [⟨500, 700, "t2", -1500⟩] 1 2000 (by decide)).2 (by decide) (by decide)⟩

/-! ### Claim C6: transport errors become error snapshots -/

/-- C6: a non-2xx response makes the cycle return the error snapshot
`{"error": "HTTP <status>"}` (the code checks `status != 200`, which every
non-2xx status satisfies), and a raised network/timeout/decode exception
makes it return `{"error": str(ex)}`; both paths return a value instead
of propagating an exception. -/
theorem http_error_snapshot (lineId startStation endStation : String)
    (currentTime : Int) :
    (∀ (status : Nat) (payload : Payload), ¬(200 ≤ status ∧ status < 300) →
        poll lineId startStation endStation currentTime (.response status payload) =
          .error ("HTTP " ++ toString status)) ∧
      ∀ msg : String,
        poll lineId startStation endStation currentTime (.exception msg) =
          .error msg := by
  constructor
  · intro status payload hne
    have h200 : status ≠ 200 := by omega
    simp [poll, h200]
  · intro msg
    rfl

/-- Witness for C6 at an HTTP 500 response and a timeout exception. -/
theorem http_error_snapshot_witness :
    poll "UP-W" "STA" "STB" 0 (.response 500 (.parsed [])) = .error "HTTP 500" ∧
      poll "UP-W" "STA" "STB" 0 (.exception "Timeout") = .error "Timeout" := by
  constructor
  · have h := (http_error_snapshot "UP-W" "STA" "STB" 0).1 500 (.parsed []) (by omega)
    exact h.trans (by decide)
  · exact (http_error_snapshot "UP-W" "STA" "STB" 0).2 "Timeout"

/-! ### Claim C8: no ordering constraint between the two stops -/

/-- C8: the stop loop imposes no ordering between the configured stops —
a trip whose sequence has a usable end-stop arrival strictly before the
start-stop one (with only inert entries in between) still produces a
matched arrival, whose `end_time` is that earlier instant (so `end_time`
may precede `start_time`). -/
theorem no_stop_order_constraint (lineId startStation endStation tripId : String)
    (currentTime : Int) (te ts : Nat) (mid : List StopTimeUpdate)
    (hne : startStation ≠ endStation) (hte : te ≠ 0) (hts : ts ≠ 0)
    (hmid : ∀ u ∈ mid,
      u.arrivalTime = 0 ∨ (u.stop_id ≠ startStation ∧ u.stop_id ≠ endStation)) :
    matchTrip lineId startStation endStation currentTime
        ⟨lineId, tripId, ⟨endStation, te⟩ :: (mid ++ [⟨startStation, ts⟩])⟩ =
      some ⟨ts, te, if tripId = "" then "unknown" else tripId,
        (ts : Int) - currentTime⟩ := by
  have h1 : stepStop startStation endStation (none, none) ⟨endStation, te⟩ =
      (none, some te) := by
    simp [stepStop, hte, Ne.symm hne]
  have hms : matchStops startStation endStation
      (⟨endStation, te⟩ :: (mid ++ [⟨startStation, ts⟩])) = (some ts, some te) := by
    rw [matchStops, List.foldl_cons, h1, List.foldl_append,
      foldl_stepStop_inert startStation endStation mid _ hmid]
    simp [stepStop, hts]
  simp [matchTrip, hms]

/-- Witness for C8: end stop listed (and arriving) before the start stop
still matches, with `end_time < start_time`. -/
theorem no_stop_order_constraint_witness :
    matchTrip "UP-W" "STA" "STB" 0 ⟨"UP-W", "t1", [⟨"STB", 100⟩, ⟨"STA", 200⟩]⟩ =
      some ⟨200, 100, "t1", 200⟩ ∧ (100 : Nat) < 200 :=
  ⟨(no_stop_order_constraint "UP-W" "STA" "STB" "t1" 0 100 200 []
      (by decide) (by decide) (by decide) (by decide)).trans (by decide),
   by decide⟩

/-! ### Claim C10: the last usable entry for a stop wins -/

/-- C10: when several entries of a trip's stop sequence carry usable
arrival times for the same configured stop, the loop keeps the arrival
time of the last such entry — each later match overwrites the earlier
assignment, for the start stop and for the end stop alike. -/
theorem last_match_wins (startStation endStation : String)
    (hne : startStation ≠ endStation) (t₁ t₂ : Nat) (ht₁ : t₁ ≠ 0) (ht₂ : t₂ ≠ 0)
    (xs₁ ys₁ xs₂ ys₂ : List StopTimeUpdate)
    (hys₁ : ∀ u ∈ ys₁, u.arrivalTime = 0 ∨ u.stop_id ≠ startStation)
    (hys₂ : ∀ u ∈ ys₂, u.arrivalTime = 0 ∨ u.stop_id ≠ endStation) :
    (matchStops startStation endStation (xs₁ ++ ⟨startStation, t₁⟩ :: ys₁)).1 =
        some t₁ ∧
      (matchStops startStation endStation (xs₂ ++ ⟨endStation, t₂⟩ :: ys₂)).2 =
        some t₂ := by
  constructor
  · rw [matchStops, List.foldl_append, List.foldl_cons,
      foldl_stepStop_fst_frozen startStation endStation ys₁ _ hys₁]
    simp [stepStop, ht₁]
  · rw [matchStops, List.foldl_append, List.foldl_cons,
      foldl_stepStop_snd_frozen startStation endStation ys₂ _ hys₂]
    simp [stepStop, ht₂, Ne.symm hne]

/-- Witness for C10: duplicated stop entries, later time wins on both
components. -/
theorem last_match_wins_witness :
    (matchStops "STA" "STB" [⟨"STA", 100⟩, ⟨"STA", 900⟩]).1 = some 900 ∧
      (matchStops "STA" "STB" [⟨"STB", 150⟩, ⟨"STB", 800⟩]).2 = some 800 :=
  ⟨(last_match_wins "STA" "STB" (by decide) 900 800 (by decide) (by decide)
      [⟨"STA", 100⟩] [] [⟨"STB", 150⟩] [] (by decide) (by decide)).1,
   (last_match_wins "STA" "STB" (by decide) 900 800 (by decide) (by decide)
      [⟨"STA", 100⟩] [] [⟨"STB", 150⟩] [] (by decide) (by decide)).2⟩

/-! ### Claim C7: per-entry error recovery (JSON variant) -/

/-- The published JSON snapshot depends on the item list only through
the accumulated trains. -/
theorem processItemsJson_congr (lineId startStation endStation : String)
    (currentTime : Int) (l₁ l₂ : List ItemJson)
    (h : l₁.filterMap (matchItemJson lineId startStation endStation currentTime) =
      l₂.filterMap (matchItemJson lineId startStation endStation currentTime)) :
    processItemsJson lineId startStation endStation currentTime l₁ =
      processItemsJson lineId startStation endStation currentTime l₂ := by
  simp only [processItemsJson, h]

/-- A stop entry whose timestamp fails to parse is skipped by the inner
`except: continue` and leaves the stop-loop fold unchanged. -/
theorem matchStopsJson_bad_skip (startStation endStation : String)
    (as bs : List StopEntryJson) (sid : Option String) (raw : String) :
    matchStopsJson startStation endStation (as ++ ⟨sid, .bad raw⟩ :: bs) =
      matchStopsJson startStation endStation (as ++ bs) := by
  rw [matchStopsJson, matchStopsJson, List.foldl_append, List.foldl_append,
    List.foldl_cons]
  rfl

/-- A stop entry with a missing/falsy arrival field is skipped by
`if not arrival_raw: continue` and leaves the stop-loop fold unchanged. -/
theorem matchStopsJson_absent_skip (startStation endStation : String)
    (as bs : List StopEntryJson) (sid : Option String) :
    matchStopsJson startStation endStation (as ++ ⟨sid, .absent⟩ :: bs) =
      matchStopsJson startStation endStation (as ++ bs) := by
  rw [matchStopsJson, matchStopsJson, List.foldl_append, List.foldl_append,
    List.foldl_cons]
  rfl

/-- C7: in the JSON variant, per-entry errors are fully recovered —
(1) an item whose processing raises is skipped by `except: continue`
without changing the snapshot; (2) a stop entry with an unparseable
timestamp and (3) one with a missing arrival field are skipped without
changing the snapshot; (4) any parsed top-level payload yields a success
snapshot, never an error one; (5) only a malformed top-level payload is
surfaced as a decode-error snapshot. -/
theorem per_entry_error_recovery (lineId startStation endStation : String)
    (currentTime : Int) :
    (∀ xs ys : List ItemJson,
        pollJson lineId startStation endStation currentTime
            (.response 200 (.parsed (xs ++ .malformed :: ys))) =
          pollJson lineId startStation endStation currentTime
            (.response 200 (.parsed (xs ++ ys)))) ∧
      (∀ (routeId tripId : Option String) (as bs : List StopEntryJson)
          (sid : Option String) (raw : String) (xs ys : List ItemJson),
        pollJson lineId startStation endStation currentTime
            (.response 200 (.parsed
              (xs ++ .ok ⟨routeId, tripId, as ++ ⟨sid, .bad raw⟩ :: bs⟩ :: ys))) =
          pollJson lineId startStation endStation currentTime
            (.response 200 (.parsed (xs ++ .ok ⟨routeId, tripId, as ++ bs⟩ :: ys)))) ∧
      (∀ (routeId tripId : Option String) (as bs : List StopEntryJson)
          (sid : Option String) (xs ys : List ItemJson),
        pollJson lineId startStation endStation currentTime
            (.response 200 (.parsed
              (xs ++ .ok ⟨routeId, tripId, as ++ ⟨sid, .absent⟩ :: bs⟩ :: ys))) =
          pollJson lineId startStation endStation currentTime
            (.response 200 (.parsed (xs ++ .ok ⟨routeId, tripId, as ++ bs⟩ :: ys)))) ∧
      (∀ items : List ItemJson, ∃ (trainsOut : List TrainJson) (cnt : Nat) (lu : Int),
        pollJson lineId startStation endStation currentTime
            (.response 200 (.parsed items)) = .success trainsOut cnt lu) ∧
      ∀ msg : String,
        pollJson lineId startStation endStation currentTime
          (.response 200 (.malformed msg)) = .error msg := by
  have hpoll : ∀ p : PayloadJson,
      pollJson lineId startStation endStation currentTime (.response 200 p) =
        match p with
        | .malformed msg => .error msg
        | .parsed items =>
            processItemsJson lineId startStation endStation currentTime items := by
    intro p
    simp [pollJson]
  refine ⟨fun xs ys => ?_, fun routeId tripId as bs sid raw xs ys => ?_,
    fun routeId tripId as bs sid xs ys => ?_, fun items => ?_, fun msg => ?_⟩
  · rw [hpoll, hpoll]
    apply processItemsJson_congr
    simp [List.filterMap_append, List.filterMap_cons, matchItemJson]
  · rw [hpoll, hpoll]
    apply processItemsJson_congr
    have hitem : matchItemJson lineId startStation endStation currentTime
        (.ok ⟨routeId, tripId, as ++ ⟨sid, .bad raw⟩ :: bs⟩) =
          matchItemJson lineId startStation endStation currentTime
            (.ok ⟨routeId, tripId, as ++ bs⟩) := by
      simp only [matchItemJson, matchStopsJson_bad_skip]
    simp [List.filterMap_append, List.filterMap_cons, hitem]
  · rw [hpoll, hpoll]
    apply processItemsJson_congr
    have hitem : matchItemJson lineId startStation endStation currentTime
        (.ok ⟨routeId, tripId, as ++ ⟨sid, .absent⟩ :: bs⟩) =
          matchItemJson lineId startStation endStation currentTime
            (.ok ⟨routeId, tripId, as ++ bs⟩) := by
      simp only [matchItemJson, matchStopsJson_absent_skip]
    simp [List.filterMap_append, List.filterMap_cons, hitem]
  · rw [hpoll]
    exact ⟨_, _, _, rfl⟩
  · rw [hpoll]
